import Mathlib

/-!
Verification of the tinytracker UDP tracker core: the wire types and the
codec from src/codec.rs, and the request handler from src/tracker.rs.

Byte buffers are modelled as `List Nat` (a Rust `u8` slice has every entry
below 256; theorems that need this carry it as a hypothesis).  Machine
integers are `Nat` with explicit `% 2 ^ w` where the code truncates.
Fallible parsing returns `Option`; the panic-prone raw slice indexing of
`decode` (`src[..8]`, `src[8..12]`) is modelled by `slice?`, which yields
`none` exactly when the Rust indexing would panic, so `decode` itself
returns `Option DecodeResult` with `none` marking a panic.
-/

namespace TinyTracker

/-- The connect magic constant from src/codec.rs (`CONNECT_MAGIC`). -/
def CONNECT_MAGIC : Nat := 0x41727101980

/-- Action codes (src/codec.rs `Action`): Connect = 0, Announce = 1, Scrape = 2. -/
inductive Action : Type
  | connect
  | announce
  | scrape
deriving DecidableEq

/-- Announce events (src/codec.rs `AnnounceEvent`): None = 0, Completed = 1,
Started = 2, Stopped = 3. -/
inductive AnnounceEvent : Type
  | none
  | completed
  | started
  | stopped
deriving DecidableEq

/-- Wire value of an action (src/codec.rs `impl From<Action> for u32`). -/
def actionCode : Action → Nat
  | .connect => 0
  | .announce => 1
  | .scrape => 2

/-- Wire value of an announce event (src/codec.rs `impl From<AnnounceEvent> for u32`). -/
def eventCode : AnnounceEvent → Nat
  | .none => 0
  | .completed => 1
  | .started => 2
  | .stopped => 3

/-- src/codec.rs `impl TryFrom<u32> for Action`: 0, 1, 2 succeed, all else fails. -/
def actionTryFrom (n : Nat) : Option Action :=
  if n = 0 then some .connect
  else if n = 1 then some .announce
  else if n = 2 then some .scrape
  else none

/-- src/codec.rs `impl TryFrom<u32> for AnnounceEvent`: 0..3 succeed, all else fails. -/
def eventTryFrom (n : Nat) : Option AnnounceEvent :=
  if n = 0 then some .none
  else if n = 1 then some .completed
  else if n = 2 then some .started
  else if n = 3 then some .stopped
  else none

/-- src/codec.rs `InfoHash`: 20 raw bytes. -/
structure InfoHash where
  hash : List Nat
deriving DecidableEq

/-- src/codec.rs `PeerId`: 20 raw bytes. -/
structure PeerId where
  inner : List Nat
deriving DecidableEq

/-- src/codec.rs `Peer`: an IPv4 address (kept as its `u32` big-endian value,
which `Ipv4Addr::from`/`into` maps bijectively) and a 16-bit port. -/
structure Peer where
  ip_address : Nat
  port : Nat
deriving DecidableEq

/-- src/codec.rs `ScrapeData`: three 32-bit counters. -/
structure ScrapeData where
  seeders : Nat
  completed : Nat
  leechers : Nat
deriving DecidableEq

/-- src/codec.rs `ConnectRequest`.  The arguments of the `#[binrw(magic = ...)]`
attribute are inert (binrw directives live in `#[brw(...)]`, and an integer
magic needs a type suffix to compile), so the derived reader and writer are
the plain field sequence of the 16-byte layout documented in the source. -/
structure ConnectRequest where
  protocol_id : Nat
  action : Action
  transaction_id : Nat
deriving DecidableEq

/-- src/codec.rs `ConnectResponse`: action, transaction id, connection id. -/
structure ConnectResponse where
  action : Action
  transaction_id : Nat
  connection_id : Nat
deriving DecidableEq

/-- src/codec.rs `AnnounceRequest`: the 96-byte fixed layout plus the optional
trailing 16-bit port. -/
structure AnnounceRequest where
  connection_id : Nat
  action : Action
  transaction_id : Nat
  info_hash : InfoHash
  peer_id : PeerId
  downloaded : Nat
  left : Nat
  uploaded : Nat
  event : AnnounceEvent
  ip_address : Nat
  key : Nat
  peers_wanted : Nat
  port : Option Nat
deriving DecidableEq

/-- src/codec.rs `AnnounceResponse`: fixed 20-byte head plus 6-byte peers until
end of input. -/
structure AnnounceResponse where
  action : Action
  transaction_id : Nat
  interval : Nat
  leechers : Nat
  seeders : Nat
  peers : List Peer
deriving DecidableEq

/-- src/codec.rs `ScrapeRequest`: fixed 16-byte head plus 20-byte hashes until
end of input. -/
structure ScrapeRequest where
  connection_id : Nat
  action : Action
  transaction_id : Nat
  hashes : List InfoHash
deriving DecidableEq

/-- src/codec.rs `ScrapeResponse`: fixed 8-byte head plus 12-byte counter
records until end of input. -/
structure ScrapeResponse where
  action : Action
  transaction_id : Nat
  data : List ScrapeData
deriving DecidableEq

/-- src/codec.rs `TrackerPacket`: the six packet shapes. -/
inductive TrackerPacket : Type
  | ConnectRequest (r : ConnectRequest)
  | ConnectResponse (r : ConnectResponse)
  | AnnounceRequest (r : AnnounceRequest)
  | AnnounceResponse (r : AnnounceResponse)
  | ScrapeRequest (r : ScrapeRequest)
  | ScrapeResponse (r : ScrapeResponse)
deriving DecidableEq

/-! ## Big-endian serialization -/

/-- Big-endian bytes of `n % 256 ^ w`, `w` bytes long (the `write_be` byte
order binrw uses for every integer field under `#[brw(big)]`). -/
def be : Nat → Nat → List Nat
  | 0, _ => []
  | w + 1, n => be w (n / 256) ++ [n % 256]

/-- Big-endian value of a byte list (`u64::from_be_bytes` and friends). -/
def beVal (l : List Nat) : Nat :=
  l.foldl (fun a b => a * 256 + b) 0

/-- Concatenated encoding of a list of records (binrw writes a `Vec` element
by element). -/
def encodeList {α : Type} (enc : α → List Nat) : List α → List Nat
  | [] => []
  | a :: t => enc a ++ encodeList enc t

/-- Writer for `Peer` (src/codec.rs: `ip_addr_writer` then the port). -/
def encodePeer (p : Peer) : List Nat :=
  be 4 p.ip_address ++ be 2 p.port

/-- Writer for `ScrapeData`. -/
def encodeScrapeData (d : ScrapeData) : List Nat :=
  be 4 d.seeders ++ (be 4 d.completed ++ be 4 d.leechers)

/-- Writer for `ConnectRequest` (16 bytes: protocol id, action, transaction id). -/
def encodeConnectRequest (r : ConnectRequest) : List Nat :=
  be 8 r.protocol_id ++ (be 4 (actionCode r.action) ++ be 4 r.transaction_id)

/-- Writer for `ConnectResponse` (16 bytes). -/
def encodeConnectResponse (r : ConnectResponse) : List Nat :=
  be 4 (actionCode r.action) ++ (be 4 r.transaction_id ++ be 8 r.connection_id)

/-- Writer for `AnnounceRequest`; the port is written only when present. -/
def encodeAnnounceRequest (r : AnnounceRequest) : List Nat :=
  be 8 r.connection_id ++
    (be 4 (actionCode r.action) ++
      (be 4 r.transaction_id ++
        (r.info_hash.hash ++
          (r.peer_id.inner ++
            (be 8 r.downloaded ++
              (be 8 r.left ++
                (be 8 r.uploaded ++
                  (be 4 (eventCode r.event) ++
                    (be 4 r.ip_address ++
                      (be 4 r.key ++
                        (be 4 r.peers_wanted ++
                          (match r.port with
                            | Option.none => []
                            | some p => be 2 p))))))))))))

/-- Writer for `AnnounceResponse`. -/
def encodeAnnounceResponse (r : AnnounceResponse) : List Nat :=
  be 4 (actionCode r.action) ++
    (be 4 r.transaction_id ++
      (be 4 r.interval ++
        (be 4 r.leechers ++
          (be 4 r.seeders ++ encodeList encodePeer r.peers))))

/-- Writer for `ScrapeRequest`. -/
def encodeScrapeRequest (r : ScrapeRequest) : List Nat :=
  be 8 r.connection_id ++
    (be 4 (actionCode r.action) ++
      (be 4 r.transaction_id ++ encodeList (fun h => h.hash) r.hashes))

/-- Writer for `ScrapeResponse`. -/
def encodeScrapeResponse (r : ScrapeResponse) : List Nat :=
  be 4 (actionCode r.action) ++
    (be 4 r.transaction_id ++ encodeList encodeScrapeData r.data)

/-- src/codec.rs `TrackerCodec::encode`: serialize one packet to bytes. -/
def encodePacket : TrackerPacket → List Nat
  | .ConnectRequest r => encodeConnectRequest r
  | .ConnectResponse r => encodeConnectResponse r
  | .AnnounceRequest r => encodeAnnounceRequest r
  | .AnnounceResponse r => encodeAnnounceResponse r
  | .ScrapeRequest r => encodeScrapeRequest r
  | .ScrapeResponse r => encodeScrapeResponse r

/-! ## Readers -/

/-- Read `n` raw bytes from the front, or fail (binrw end-of-input error). -/
def readBytesN (n : Nat) (bs : List Nat) : Option (List Nat × List Nat) :=
  if n ≤ bs.length then some (bs.take n, bs.drop n) else none

/-- Read a `w`-byte big-endian integer. -/
def readBE (w : Nat) (bs : List Nat) : Option (Nat × List Nat) :=
  match readBytesN w bs with
  | some (chunk, rest) => some (beVal chunk, rest)
  | Option.none => none

/-- Read an `Action` (binrw `repr = u32`: a u32 that must match a declared
discriminant, mirroring `Action::try_from`). -/
def readAction (bs : List Nat) : Option (Action × List Nat) :=
  match readBE 4 bs with
  | some (v, rest) =>
    match actionTryFrom v with
    | some a => some (a, rest)
    | Option.none => none
  | Option.none => none

/-- Read an `AnnounceEvent` (binrw `repr = u32`). -/
def readEvent (bs : List Nat) : Option (AnnounceEvent × List Nat) :=
  match readBE 4 bs with
  | some (v, rest) =>
    match eventTryFrom v with
    | some e => some (e, rest)
    | Option.none => none
  | Option.none => none

/-- Modelled from the spec: the `port: Option<u16>` field of `AnnounceRequest`
is parsed by binrw code that is not under src/.  Per the spec, the port "is
present only if trailing bytes remain in the datagram; its absence is not an
error": try to read two bytes, and yield `none` without failing when they are
not there. -/
def readOptU16 (bs : List Nat) : Option Nat × List Nat :=
  match readBE 2 bs with
  | some (v, rest) => (some v, rest)
  | Option.none => (none, bs)

/-- Fuelled form of `binrw::helpers::until_eof`: read `n`-byte records until
the input cannot supply a further record; a trailing remainder shorter than
one record ends the list.  The fuel only bounds recursion and is supplied as
the input length, which always suffices for records of positive size. -/
def readRecords {α : Type} (n : Nat) (build : List Nat → α) : Nat → List Nat → List α × List Nat
  | 0, bs => ([], bs)
  | fuel + 1, bs =>
    if n ≤ bs.length then
      let p := readRecords n build fuel (bs.drop n)
      (build (bs.take n) :: p.1, p.2)
    else ([], bs)

/-- Build a `Peer` from its 6-byte record. -/
def buildPeer (chunk : List Nat) : Peer :=
  { ip_address := beVal (chunk.take 4), port := beVal ((chunk.drop 4).take 2) }

/-- Build a `ScrapeData` from its 12-byte record. -/
def buildScrapeData (chunk : List Nat) : ScrapeData :=
  { seeders := beVal (chunk.take 4)
    completed := beVal ((chunk.drop 4).take 4)
    leechers := beVal ((chunk.drop 8).take 4) }

/-- Read `Peer` records until end of input. -/
def readPeers (bs : List Nat) : List Peer × List Nat :=
  readRecords 6 buildPeer bs.length bs

/-- Read `InfoHash` records until end of input. -/
def readHashes (bs : List Nat) : List InfoHash × List Nat :=
  readRecords 20 (fun chunk => ⟨chunk⟩) bs.length bs

/-- Read `ScrapeData` records until end of input. -/
def readScrapeDatas (bs : List Nat) : List ScrapeData × List Nat :=
  readRecords 12 buildScrapeData bs.length bs

/-- Derived binrw reader for `ConnectRequest` (see the note on that structure:
the attribute arguments are inert, so this is the plain 16-byte layout of the
source code comment). -/
def readConnectRequest (bs : List Nat) : Option (ConnectRequest × List Nat) :=
  match readBE 8 bs with
  | some (pid, r1) =>
    match readAction r1 with
    | some (a, r2) =>
      match readBE 4 r2 with
      | some (t, r3) => some ({ protocol_id := pid, action := a, transaction_id := t }, r3)
      | Option.none => none
    | Option.none => none
  | Option.none => none

/-- Derived binrw reader for `ConnectResponse`. -/
def readConnectResponse (bs : List Nat) : Option (ConnectResponse × List Nat) :=
  match readAction bs with
  | some (a, r1) =>
    match readBE 4 r1 with
    | some (t, r2) =>
      match readBE 8 r2 with
      | some (c, r3) => some ({ action := a, transaction_id := t, connection_id := c }, r3)
      | Option.none => none
    | Option.none => none
  | Option.none => none

/-- Derived binrw reader for `AnnounceRequest` (field order of the source;
the trailing optional port via `readOptU16`). -/
def readAnnounceRequest (bs : List Nat) : Option (AnnounceRequest × List Nat) :=
  match readBE 8 bs with
  | some (cid, r1) =>
    match readAction r1 with
    | some (a, r2) =>
      match readBE 4 r2 with
      | some (t, r3) =>
        match readBytesN 20 r3 with
        | some (ih, r4) =>
          match readBytesN 20 r4 with
          | some (pid, r5) =>
            match readBE 8 r5 with
            | some (dl, r6) =>
              match readBE 8 r6 with
              | some (lf, r7) =>
                match readBE 8 r7 with
                | some (ul, r8) =>
                  match readEvent r8 with
                  | some (ev, r9) =>
                    match readBE 4 r9 with
                    | some (ip, r10) =>
                      match readBE 4 r10 with
                      | some (k, r11) =>
                        match readBE 4 r11 with
                        | some (pw, r12) =>
                          let pp := readOptU16 r12
                          some ({ connection_id := cid, action := a, transaction_id := t,
                                  info_hash := ⟨ih⟩, peer_id := ⟨pid⟩,
                                  downloaded := dl, left := lf, uploaded := ul,
                                  event := ev, ip_address := ip, key := k,
                                  peers_wanted := pw, port := pp.1 }, pp.2)
                        | Option.none => none
                      | Option.none => none
                    | Option.none => none
                  | Option.none => none
                | Option.none => none
              | Option.none => none
            | Option.none => none
          | Option.none => none
        | Option.none => none
      | Option.none => none
    | Option.none => none
  | Option.none => none

/-- Derived binrw reader for `AnnounceResponse`. -/
def readAnnounceResponse (bs : List Nat) : Option (AnnounceResponse × List Nat) :=
  match readAction bs with
  | some (a, r1) =>
    match readBE 4 r1 with
    | some (t, r2) =>
      match readBE 4 r2 with
      | some (iv, r3) =>
        match readBE 4 r3 with
        | some (le, r4) =>
          match readBE 4 r4 with
          | some (se, r5) =>
            let pp := readPeers r5
            some ({ action := a, transaction_id := t, interval := iv,
                    leechers := le, seeders := se, peers := pp.1 }, pp.2)
          | Option.none => none
        | Option.none => none
      | Option.none => none
    | Option.none => none
  | Option.none => none

/-- Derived binrw reader for `ScrapeRequest`. -/
def readScrapeRequest (bs : List Nat) : Option (ScrapeRequest × List Nat) :=
  match readBE 8 bs with
  | some (cid, r1) =>
    match readAction r1 with
    | some (a, r2) =>
      match readBE 4 r2 with
      | some (t, r3) =>
        let hh := readHashes r3
        some ({ connection_id := cid, action := a, transaction_id := t, hashes := hh.1 }, hh.2)
      | Option.none => none
    | Option.none => none
  | Option.none => none

/-- Derived binrw reader for `ScrapeResponse`. -/
def readScrapeResponse (bs : List Nat) : Option (ScrapeResponse × List Nat) :=
  match readAction bs with
  | some (a, r1) =>
    match readBE 4 r1 with
    | some (t, r2) =>
      let dd := readScrapeDatas r2
      some ({ action := a, transaction_id := t, data := dd.1 }, dd.2)
    | Option.none => none
  | Option.none => none

/-! ## The decoder -/

/-- Outcome of one `TrackerCodec::decode` call, mirroring the Rust
`Result<Option<TrackerPacket>, Error>`: `packet p` is `Ok(Some(p))`,
`noPacket` is `Ok(None)` (returned both below 16 bytes, the "incomplete"
case, and when no action interpretation matches, the "unrecognized" case),
and `parseError` is `Err(e)` from a failing binrw parse. -/
inductive DecodeResult : Type
  | packet (p : TrackerPacket)
  | noPacket
  | parseError
deriving DecidableEq

/-- Rust slice indexing `&src[a..b]`: `none` exactly when it would panic. -/
def slice? (l : List Nat) (a b : Nat) : Option (List Nat) :=
  if a ≤ b ∧ b ≤ l.length then some ((l.drop a).take (b - a)) else none

/-- Wrap a reader outcome the way `decode` does: a successful `read_be` is
`Ok(Some(...)))`, a failing one propagates as `Err` via `?`. -/
def parseAs {α : Type} (rd : List Nat → Option (α × List Nat))
    (ctor : α → TrackerPacket) (src : List Nat) : DecodeResult :=
  match rd src with
  | some (p, _) => .packet (ctor p)
  | Option.none => .parseError

/-- Second dispatch phase of `decode` (src/codec.rs lines 103-114): try the
response action against Connect, Announce, Scrape. -/
def responsePhase (respAction : Nat) (src : List Nat) : DecodeResult :=
  match actionTryFrom respAction with
  | some .connect => parseAs readConnectResponse TrackerPacket.ConnectResponse src
  | some .announce => parseAs readAnnounceResponse TrackerPacket.AnnounceResponse src
  | some .scrape => parseAs readScrapeResponse TrackerPacket.ScrapeResponse src
  | Option.none => .noPacket

/-- First dispatch phase of `decode` (src/codec.rs lines 93-101): try the
request action against Announce and Scrape only; anything else falls through
to the response interpretation. -/
def requestPhase (reqAction respAction : Nat) (src : List Nat) : DecodeResult :=
  match actionTryFrom reqAction with
  | some .announce => parseAs readAnnounceRequest TrackerPacket.AnnounceRequest src
  | some .scrape => parseAs readScrapeRequest TrackerPacket.ScrapeRequest src
  | _ => responsePhase respAction src

/-- src/codec.rs `TrackerCodec::decode`.  Fewer than 16 bytes: `Ok(None)`.
Magic match on the first 8 bytes: commit to `ConnectRequest`.  Otherwise
dispatch on the request action (bytes 8..12) then the response action (the
upper 32 bits of the leading 64-bit value).  The outer `Option` is `none`
only if a raw slice indexing would panic. -/
def decode (src : List Nat) : Option DecodeResult :=
  if src.length < 16 then some .noPacket
  else
    match slice? src 0 8 with
    | Option.none => none
    | some magicBytes =>
      let magic := beVal magicBytes
      if magic = CONNECT_MAGIC then
        some (parseAs readConnectRequest TrackerPacket.ConnectRequest src)
      else
        match slice? src 8 12 with
        | Option.none => none
        | some reqBytes =>
          some (requestPhase (beVal reqBytes) (magic / 2 ^ 32 % 2 ^ 32) src)

/-- Bytes consumed from the input buffer by one `decode` call: below 16 bytes
the code returns before any `advance`; otherwise it advances the whole
buffer (src/codec.rs lines 82 and 89). -/
def decodeConsumed (src : List Nat) : Nat :=
  if src.length < 16 then 0 else src.length

/-! ## The request handler -/

/-- Static configuration of `Tracker` (src/tracker.rs): the advertised peer
list and the announce interval. -/
structure TrackerConfig where
  static_peers : List Peer
  interval : Nat

/-- Outcome of `Tracker::handle_packet`, mirroring its Rust type
`Result<Option<TrackerPacket>>`: `reply p` is `Ok(Some(p))`, `noReply` is
`Ok(None)`, and `failure` is the `Err` channel, which the body never
produces. -/
inductive HandlerResult : Type
  | reply (p : TrackerPacket)
  | noReply
  | failure
deriving DecidableEq

/-- src/tracker.rs `Tracker::handle_packet`.  `freshCid` stands for the
`rand::random()` connection id minted for a connect; peer-list length is
truncated to u32 where the code casts with `as u32`. -/
def handlePacket (cfg : TrackerConfig) (freshCid : Nat) : TrackerPacket → HandlerResult
  | .ConnectRequest req =>
    .reply (.ConnectResponse
      { action := .connect, transaction_id := req.transaction_id, connection_id := freshCid })
  | .AnnounceRequest req =>
    .reply (.AnnounceResponse
      { action := .announce, transaction_id := req.transaction_id,
        interval := cfg.interval, leechers := 0,
        seeders := cfg.static_peers.length % 2 ^ 32, peers := cfg.static_peers })
  | .ScrapeRequest req =>
    .reply (.ScrapeResponse
      { action := .scrape, transaction_id := req.transaction_id,
        data := req.hashes.map (fun _ =>
          { seeders := cfg.static_peers.length % 2 ^ 32,
            completed := cfg.static_peers.length % 2 ^ 32, leechers := 0 }) })
  | _ => .noReply

/-! ## Wellformedness and validity -/

/-- Field bounds of a representable `Peer`. -/
def PeerWF (p : Peer) : Prop :=
  p.ip_address < 2 ^ 32 ∧ p.port < 2 ^ 16

/-- A representable 20-byte hash. -/
def InfoHashWF (h : InfoHash) : Prop :=
  h.hash.length = 20 ∧ ∀ b ∈ h.hash, b < 256

/-- A representable 20-byte peer id. -/
def PeerIdWF (p : PeerId) : Prop :=
  p.inner.length = 20 ∧ ∀ b ∈ p.inner, b < 256

/-- Field bounds of a representable `ScrapeData`. -/
def ScrapeDataWF (d : ScrapeData) : Prop :=
  d.seeders < 2 ^ 32 ∧ d.completed < 2 ^ 32 ∧ d.leechers < 2 ^ 32

/-- Field bounds of a representable `ConnectRequest`. -/
def ConnectRequestWF (r : ConnectRequest) : Prop :=
  r.protocol_id < 2 ^ 64 ∧ r.transaction_id < 2 ^ 32

/-- Field bounds of a representable `ConnectResponse`. -/
def ConnectResponseWF (r : ConnectResponse) : Prop :=
  r.transaction_id < 2 ^ 32 ∧ r.connection_id < 2 ^ 64

/-- Field bounds of a representable `AnnounceRequest`. -/
def AnnounceRequestWF (r : AnnounceRequest) : Prop :=
  r.connection_id < 2 ^ 64 ∧ r.transaction_id < 2 ^ 32 ∧
    InfoHashWF r.info_hash ∧ PeerIdWF r.peer_id ∧
    r.downloaded < 2 ^ 64 ∧ r.left < 2 ^ 64 ∧ r.uploaded < 2 ^ 64 ∧
    r.ip_address < 2 ^ 32 ∧ r.key < 2 ^ 32 ∧ r.peers_wanted < 2 ^ 32 ∧
    r.port.getD 0 < 2 ^ 16

/-- Field bounds of a representable `AnnounceResponse`. -/
def AnnounceResponseWF (r : AnnounceResponse) : Prop :=
  r.transaction_id < 2 ^ 32 ∧ r.interval < 2 ^ 32 ∧ r.leechers < 2 ^ 32 ∧
    r.seeders < 2 ^ 32 ∧ ∀ p ∈ r.peers, PeerWF p

/-- Field bounds of a representable `ScrapeRequest`. -/
def ScrapeRequestWF (r : ScrapeRequest) : Prop :=
  r.connection_id < 2 ^ 64 ∧ r.transaction_id < 2 ^ 32 ∧ ∀ h ∈ r.hashes, InfoHashWF h

/-- Field bounds of a representable `ScrapeResponse`. -/
def ScrapeResponseWF (r : ScrapeResponse) : Prop :=
  r.transaction_id < 2 ^ 32 ∧ ∀ d ∈ r.data, ScrapeDataWF d

/-- Field bounds of a representable packet. -/
def PacketWF : TrackerPacket → Prop
  | .ConnectRequest r => ConnectRequestWF r
  | .ConnectResponse r => ConnectResponseWF r
  | .AnnounceRequest r => AnnounceRequestWF r
  | .AnnounceResponse r => AnnounceResponseWF r
  | .ScrapeRequest r => ScrapeRequestWF r
  | .ScrapeResponse r => ScrapeResponseWF r

/-- The action field stored in a packet. -/
def packetActionField : TrackerPacket → Action
  | .ConnectRequest r => r.action
  | .ConnectResponse r => r.action
  | .AnnounceRequest r => r.action
  | .AnnounceResponse r => r.action
  | .ScrapeRequest r => r.action
  | .ScrapeResponse r => r.action

/-- The action a packet variant stands for. -/
def variantAction : TrackerPacket → Action
  | .ConnectRequest _ => .connect
  | .ConnectResponse _ => .connect
  | .AnnounceRequest _ => .announce
  | .AnnounceResponse _ => .announce
  | .ScrapeRequest _ => .scrape
  | .ScrapeResponse _ => .scrape

/-- A packet whose stored action field matches its variant. -/
def actionAgrees (p : TrackerPacket) : Prop :=
  packetActionField p = variantAction p

/-- Whether a packet is the `ConnectRequest` variant. -/
def isConnectRequest : TrackerPacket → Bool
  | .ConnectRequest _ => true
  | _ => false

/-- Whether a packet is one of the three response shapes. -/
def isResponsePacket : TrackerPacket → Bool
  | .ConnectResponse _ => true
  | .AnnounceResponse _ => true
  | .ScrapeResponse _ => true
  | _ => false

/-- A valid packet per the data model of the spec: the action field matches
the variant, and a `ConnectRequest` carries the magic constant as its
protocol id. -/
def PacketValid (p : TrackerPacket) : Prop :=
  actionAgrees p ∧
    match p with
    | .ConnectRequest r => r.protocol_id = CONNECT_MAGIC
    | _ => True

/-! ## List helpers -/

theorem takeAppend {α : Type} (l r : List α) : (l ++ r).take l.length = l := by
  induction l with
  | nil => simp
  | cons a t ih => simp [ih]

theorem dropAppend {α : Type} (l r : List α) : (l ++ r).drop l.length = r := by
  induction l with
  | nil => simp
  | cons a t ih => simp [ih]

theorem takeAppendOf {α : Type} {l : List α} {n : Nat} (r : List α) (h : l.length = n) :
    (l ++ r).take n = l := by
  subst h; exact takeAppend l r

theorem dropAppendOf {α : Type} {l : List α} {n : Nat} (r : List α) (h : l.length = n) :
    (l ++ r).drop n = r := by
  subst h; exact dropAppend l r

theorem takeAddMy {α : Type} : ∀ (m n : Nat) (l : List α),
    l.take (m + n) = l.take m ++ (l.drop m).take n := by
  intro m
  induction m with
  | zero => intro n l; simp
  | succ k ih =>
    intro n l
    cases l with
    | nil => simp
    | cons a t =>
      have : k + 1 + n = (k + n) + 1 := by omega
      simp [this, List.take_succ_cons, ih n t]

/-! ## Big-endian lemmas -/

theorem length_be (w n : Nat) : (be w n).length = w := by
  induction w generalizing n with
  | zero => simp [be]
  | succ k ih => simp [be, ih]

theorem beVal_append (xs ys : List Nat) :
    beVal (xs ++ ys) = beVal xs * 256 ^ ys.length + beVal ys := by
  induction ys using List.reverseRecOn with
  | nil => simp [beVal]
  | append_singleton t b ih =>
    have h1 : beVal ((xs ++ t) ++ [b]) = beVal (xs ++ t) * 256 + b := by
      simp [beVal, List.foldl_append]
    have h2 : beVal (t ++ [b]) = beVal t * 256 + b := by
      simp [beVal, List.foldl_append]
    calc beVal (xs ++ (t ++ [b])) = beVal ((xs ++ t) ++ [b]) := by rw [List.append_assoc]
      _ = (beVal xs * 256 ^ t.length + beVal t) * 256 + b := by rw [h1, ih]
      _ = beVal xs * 256 ^ (t ++ [b]).length + (beVal t * 256 + b) := by
          simp [List.length_append, pow_succ]; ring
      _ = beVal xs * 256 ^ (t ++ [b]).length + beVal (t ++ [b]) := by rw [h2]

theorem beVal_be {w n : Nat} (h : n < 256 ^ w) : beVal (be w n) = n := by
  induction w generalizing n with
  | zero =>
    have : n = 0 := by simpa using h
    simp [be, beVal, this]
  | succ k ih =>
    have hdiv : n / 256 < 256 ^ k := by
      rw [Nat.div_lt_iff_lt_mul (by norm_num : 0 < 256)]
      calc n < 256 ^ (k + 1) := h
        _ = 256 ^ k * 256 := by rw [pow_succ]
    have hb : beVal (be k (n / 256) ++ [n % 256]) =
        beVal (be k (n / 256)) * 256 + n % 256 := by
      simp [beVal_append, beVal]
    rw [be, hb, ih hdiv]
    omega

theorem beVal_lt {xs : List Nat} (h : ∀ b ∈ xs, b < 256) : beVal xs < 256 ^ xs.length := by
  induction xs using List.reverseRecOn with
  | nil => simp [beVal]
  | append_singleton t b ih =>
    have hb : b < 256 := h b (by simp)
    have ht : beVal t < 256 ^ t.length := ih (fun x hx => h x (by simp [hx]))
    have : beVal (t ++ [b]) = beVal t * 256 + b := by simp [beVal, List.foldl_append]
    rw [this]
    calc beVal t * 256 + b < (beVal t + 1) * 256 := by omega
      _ ≤ 256 ^ t.length * 256 := Nat.mul_le_mul_right 256 (by omega)
      _ = 256 ^ (t ++ [b]).length := by simp [List.length_append, pow_succ]

theorem be_split (v w n : Nat) : be (v + w) n = be v (n / 256 ^ w) ++ be w n := by
  induction w generalizing n with
  | zero => simp [be]
  | succ k ih =>
    have hvk : v + (k + 1) = (v + k) + 1 := by omega
    have hdd : n / 256 / 256 ^ k = n / 256 ^ (k + 1) := by
      rw [Nat.div_div_eq_div_mul, pow_succ, Nat.mul_comm]
    rw [hvk, be, ih (n / 256), hdd, be, List.append_assoc]

/-! ## Reader step lemmas -/

theorem readBytesN_exact {l : List Nat} {n : Nat} (rest : List Nat)
    (h : l.length = n) : readBytesN n (l ++ rest) = some (l, rest) := by
  have hlen : n ≤ (l ++ rest).length := by
    rw [List.length_append]; omega
  rw [readBytesN, if_pos hlen, takeAppendOf rest h, dropAppendOf rest h]

theorem readBE_be {w n : Nat} (rest : List Nat) (h : n < 256 ^ w) :
    readBE w (be w n ++ rest) = some (n, rest) := by
  unfold readBE
  rw [readBytesN_exact rest (length_be w n)]
  simp [beVal_be h]

theorem readBE_be_nil {w n : Nat} (h : n < 256 ^ w) :
    readBE w (be w n) = some (n, []) := by
  have := readBE_be (w := w) (n := n) [] h
  rwa [List.append_nil] at this

theorem actionCode_lt (a : Action) : actionCode a < 2 ^ 32 := by
  cases a <;> simp [actionCode]

theorem eventCode_lt (e : AnnounceEvent) : eventCode e < 2 ^ 32 := by
  cases e <;> simp [eventCode]

theorem actionTryFrom_code (a : Action) : actionTryFrom (actionCode a) = some a := by
  cases a <;> simp [actionTryFrom, actionCode]

theorem eventTryFrom_code (e : AnnounceEvent) : eventTryFrom (eventCode e) = some e := by
  cases e <;> simp [eventTryFrom, eventCode]

theorem readAction_code (a : Action) (rest : List Nat) :
    readAction (be 4 (actionCode a) ++ rest) = some (a, rest) := by
  have h : actionCode a < 256 ^ 4 := by
    have := actionCode_lt a
    norm_num at this ⊢
    omega
  unfold readAction
  rw [readBE_be rest h]
  simp [actionTryFrom_code]

theorem readEvent_code (e : AnnounceEvent) (rest : List Nat) :
    readEvent (be 4 (eventCode e) ++ rest) = some (e, rest) := by
  have h : eventCode e < 256 ^ 4 := by
    have := eventCode_lt e
    norm_num at this ⊢
    omega
  unfold readEvent
  rw [readBE_be rest h]
  simp [eventTryFrom_code]

theorem readRecords_encode {α : Type} {n : Nat} (build : List Nat → α) (enc : α → List Nat)
    (l : List α) (hn : 0 < n)
    (henc : ∀ a ∈ l, (enc a).length = n) (hbuild : ∀ a ∈ l, build (enc a) = a) :
    ∀ fuel, l.length ≤ fuel →
      readRecords n build fuel (encodeList enc l) = (l, []) := by
  induction l with
  | nil =>
    intro fuel _
    cases fuel with
    | zero => simp [readRecords, encodeList]
    | succ k =>
      have : ¬ n ≤ (encodeList enc ([] : List α)).length := by
        simp [encodeList]; omega
      simp [readRecords, encodeList, this]
      omega
  | cons a t ih =>
    intro fuel hfuel
    cases fuel with
    | zero => simp at hfuel
    | succ k =>
      have hea : (enc a).length = n := henc a (by simp)
      have hle : n ≤ (encodeList enc (a :: t)).length := by
        simp [encodeList, List.length_append, hea]
      have htake : (encodeList enc (a :: t)).take n = enc a := by
        rw [encodeList]; exact takeAppendOf _ hea
      have hdrop : (encodeList enc (a :: t)).drop n = encodeList enc t := by
        rw [encodeList]; exact dropAppendOf _ hea
      have hrec := ih (fun x hx => henc x (by simp [hx])) (fun x hx => hbuild x (by simp [hx]))
        k (by simp at hfuel; omega)
      simp [readRecords, hle, htake, hdrop, hrec, hbuild a (by simp)]

theorem encodeList_length {α : Type} {enc : α → List Nat} {n : Nat} (l : List α)
    (h : ∀ a ∈ l, (enc a).length = n) : (encodeList enc l).length = n * l.length := by
  induction l with
  | nil => simp [encodeList]
  | cons a t ih =>
    have := h a (by simp)
    simp [encodeList, List.length_append, this, ih (fun x hx => h x (by simp [hx]))]
    ring

theorem pow256_8 : (256 : Nat) ^ 8 = 2 ^ 64 := by norm_num

theorem pow256_4 : (256 : Nat) ^ 4 = 2 ^ 32 := by norm_num

theorem pow256_2 : (256 : Nat) ^ 2 = 2 ^ 16 := by norm_num

theorem take_be_self (w n : Nat) : (be w n).take w = be w n := by
  have h := takeAppendOf ([] : List Nat) (length_be w n)
  rwa [List.append_nil] at h

/-! ## Decoder plumbing lemmas -/

theorem slice?_eq {l : List Nat} {a b : Nat} (h1 : a ≤ b) (h2 : b ≤ l.length) :
    slice? l a b = some ((l.drop a).take (b - a)) := by
  rw [slice?, if_pos ⟨h1, h2⟩]

/-- Closed form of `decode` on buffers of at least 16 bytes. -/
theorem decode_eq_of {bs : List Nat} (hlen : 16 ≤ bs.length) :
    decode bs = some (
      if beVal (bs.take 8) = CONNECT_MAGIC then
        parseAs readConnectRequest TrackerPacket.ConnectRequest bs
      else
        requestPhase (beVal ((bs.drop 8).take 4))
          (beVal (bs.take 8) / 2 ^ 32 % 2 ^ 32) bs) := by
  have h8 : slice? bs 0 8 = some (bs.take 8) := by
    rw [slice?_eq (by omega) (by omega)]
    simp
  have h12 : slice? bs 8 12 = some ((bs.drop 8).take 4) := by
    rw [slice?_eq (by omega) (by omega)]
  unfold decode
  rw [if_neg (by omega), h8]
  by_cases hm : beVal (bs.take 8) = CONNECT_MAGIC
  · simp [hm]
  · simp [hm, h12]

theorem requestPhase_other {v : Nat} (h1 : v ≠ 1) (h2 : v ≠ 2) (respA : Nat) (src : List Nat) :
    requestPhase v respA src = responsePhase respA src := by
  unfold requestPhase
  by_cases h0 : v = 0 <;> simp [actionTryFrom, h0, h1, h2]

theorem beVal_be4_be4 {x t : Nat} (hx : x < 2 ^ 32) (ht : t < 2 ^ 32) :
    beVal (be 4 x ++ be 4 t) = x * 2 ^ 32 + t := by
  rw [beVal_append, length_be, beVal_be (by rw [pow256_4]; exact hx),
    beVal_be (by rw [pow256_4]; exact ht), pow256_4]

theorem head_ne_magic {x t : Nat} (hx : x ≤ 2) (ht : t < 2 ^ 32) :
    x * 2 ^ 32 + t ≠ CONNECT_MAGIC := by
  have h32 : (2 : Nat) ^ 32 = 4294967296 := by norm_num
  unfold CONNECT_MAGIC
  rw [h32] at ht ⊢
  omega

theorem respA_head {x t : Nat} (hx : x < 2 ^ 32) (ht : t < 2 ^ 32) :
    (x * 2 ^ 32 + t) / 2 ^ 32 % 2 ^ 32 = x := by
  have hpos : 0 < 2 ^ 32 := by positivity
  rw [Nat.mul_comm x (2 ^ 32), Nat.mul_add_div hpos, Nat.div_eq_of_lt ht,
    Nat.add_zero, Nat.mod_eq_of_lt hx]

theorem be8_split32 (n : Nat) : be 8 n = be 4 (n / 256 ^ 4) ++ be 4 n := by
  have h := be_split 4 4 n
  norm_num at h
  exact h

theorem div32_lt {n : Nat} (h : n < 2 ^ 64) : n / 256 ^ 4 < 256 ^ 4 := by
  rw [Nat.div_lt_iff_lt_mul (by positivity)]
  calc n < 2 ^ 64 := h
    _ = 256 ^ 4 * 256 ^ 4 := by norm_num

/-! ## Reader round trips -/

theorem readConnectRequest_encode (r : ConnectRequest) (hwf : ConnectRequestWF r) :
    readConnectRequest (encodeConnectRequest r) = some (r, []) := by
  obtain ⟨h1, h2⟩ := hwf
  have h1' : r.protocol_id < 256 ^ 8 := by rw [pow256_8]; exact h1
  have h2' : r.transaction_id < 256 ^ 4 := by rw [pow256_4]; exact h2
  unfold encodeConnectRequest readConnectRequest
  rw [readBE_be _ h1']
  simp only [readAction_code, readBE_be_nil h2']

theorem readConnectResponse_encode (r : ConnectResponse) (hwf : ConnectResponseWF r) :
    readConnectResponse (encodeConnectResponse r) = some (r, []) := by
  obtain ⟨h1, h2⟩ := hwf
  have h1' : r.transaction_id < 256 ^ 4 := by rw [pow256_4]; exact h1
  have h2' : r.connection_id < 256 ^ 8 := by rw [pow256_8]; exact h2
  unfold encodeConnectResponse readConnectResponse
  rw [readAction_code]
  simp only [readBE_be _ h1', readBE_be_nil h2']

theorem readScrapeRequest_encode (r : ScrapeRequest) (hwf : ScrapeRequestWF r) :
    readScrapeRequest (encodeScrapeRequest r) = some (r, []) := by
  obtain ⟨h1, h2, h3⟩ := hwf
  have h1' : r.connection_id < 256 ^ 8 := by rw [pow256_8]; exact h1
  have h2' : r.transaction_id < 256 ^ 4 := by rw [pow256_4]; exact h2
  have hh : readHashes (encodeList (fun h => h.hash) r.hashes) = (r.hashes, []) := by
    have hlen : ∀ h ∈ r.hashes, ((fun h : InfoHash => h.hash) h).length = 20 := by
      intro h hh
      exact (h3 h hh).1
    have hfuel : r.hashes.length ≤ (encodeList (fun h : InfoHash => h.hash) r.hashes).length := by
      rw [encodeList_length r.hashes hlen]
      omega
    unfold readHashes
    exact readRecords_encode _ _ r.hashes (by omega) hlen (fun a _ => rfl) _ hfuel
  unfold encodeScrapeRequest readScrapeRequest
  rw [readBE_be _ h1']
  simp only [readAction_code, readBE_be _ h2', hh]

theorem readScrapeResponse_encode (r : ScrapeResponse) (hwf : ScrapeResponseWF r) :
    readScrapeResponse (encodeScrapeResponse r) = some (r, []) := by
  obtain ⟨h1, h2⟩ := hwf
  have h1' : r.transaction_id < 256 ^ 4 := by rw [pow256_4]; exact h1
  have hd : readScrapeDatas (encodeList encodeScrapeData r.data) = (r.data, []) := by
    have hlen : ∀ d ∈ r.data, (encodeScrapeData d).length = 12 := by
      intro d _
      simp [encodeScrapeData, List.length_append, length_be]
    have hbuild : ∀ d ∈ r.data, buildScrapeData (encodeScrapeData d) = d := by
      intro d hd
      obtain ⟨hs, hc, hl⟩ := h2 d hd
      have hs' : d.seeders < 256 ^ 4 := by rw [pow256_4]; exact hs
      have hc' : d.completed < 256 ^ 4 := by rw [pow256_4]; exact hc
      have hl' : d.leechers < 256 ^ 4 := by rw [pow256_4]; exact hl
      have htake4 : (encodeScrapeData d).take 4 = be 4 d.seeders := by
        unfold encodeScrapeData
        exact takeAppendOf _ (length_be 4 _)
      have hdrop4 : (encodeScrapeData d).drop 4 = be 4 d.completed ++ be 4 d.leechers := by
        unfold encodeScrapeData
        exact dropAppendOf _ (length_be 4 _)
      have hdrop8 : (encodeScrapeData d).drop 8 = be 4 d.leechers := by
        unfold encodeScrapeData
        rw [← List.append_assoc]
        exact dropAppendOf _ (by simp [List.length_append, length_be])
      unfold buildScrapeData
      rw [htake4, hdrop4, hdrop8, takeAppendOf _ (length_be 4 _), take_be_self,
        beVal_be hs', beVal_be hc', beVal_be hl']
    have hfuel : r.data.length ≤ (encodeList encodeScrapeData r.data).length := by
      rw [encodeList_length r.data hlen]
      omega
    unfold readScrapeDatas
    exact readRecords_encode _ _ r.data (by omega) hlen hbuild _ hfuel
  unfold encodeScrapeResponse readScrapeResponse
  rw [readAction_code]
  simp only [readBE_be _ h1', hd]

theorem readPeers_encode (ps : List Peer) (h : ∀ p ∈ ps, PeerWF p) :
    readPeers (encodeList encodePeer ps) = (ps, []) := by
  have hlen : ∀ p ∈ ps, (encodePeer p).length = 6 := by
    intro p _
    simp [encodePeer, List.length_append, length_be]
  have hbuild : ∀ p ∈ ps, buildPeer (encodePeer p) = p := by
    intro p hp
    obtain ⟨hip, hport⟩ := h p hp
    have hip' : p.ip_address < 256 ^ 4 := by rw [pow256_4]; exact hip
    have hport' : p.port < 256 ^ 2 := by rw [pow256_2]; exact hport
    unfold buildPeer encodePeer
    rw [takeAppendOf _ (length_be 4 _), dropAppendOf _ (length_be 4 _), take_be_self,
      beVal_be hip', beVal_be hport']
  have hfuel : ps.length ≤ (encodeList encodePeer ps).length := by
    rw [encodeList_length ps hlen]
    omega
  unfold readPeers
  exact readRecords_encode _ _ ps (by omega) hlen hbuild _ hfuel

theorem readAnnounceResponse_encode (r : AnnounceResponse) (hwf : AnnounceResponseWF r) :
    readAnnounceResponse (encodeAnnounceResponse r) = some (r, []) := by
  obtain ⟨h1, h2, h3, h4, h5⟩ := hwf
  have h1' : r.transaction_id < 256 ^ 4 := by rw [pow256_4]; exact h1
  have h2' : r.interval < 256 ^ 4 := by rw [pow256_4]; exact h2
  have h3' : r.leechers < 256 ^ 4 := by rw [pow256_4]; exact h3
  have h4' : r.seeders < 256 ^ 4 := by rw [pow256_4]; exact h4
  unfold encodeAnnounceResponse readAnnounceResponse
  rw [readAction_code]
  simp only [readBE_be _ h1', readBE_be _ h2', readBE_be _ h3', readBE_be _ h4',
    readPeers_encode r.peers h5]

theorem readOptU16_nil : readOptU16 [] = (none, []) := by
  simp [readOptU16, readBE, readBytesN]

theorem readOptU16_be2 {p : Nat} (h : p < 2 ^ 16) : readOptU16 (be 2 p) = (some p, []) := by
  have h' : p < 256 ^ 2 := by rw [pow256_2]; exact h
  unfold readOptU16
  rw [readBE_be_nil h']

theorem readAnnounceRequest_encode (r : AnnounceRequest) (hwf : AnnounceRequestWF r) :
    readAnnounceRequest (encodeAnnounceRequest r) = some (r, []) := by
  obtain ⟨cid, a, t, ih, pid, dl, lf, ul, ev, ip, k, pw, po⟩ := r
  obtain ⟨h1, h2, h3, h4, h5, h6, h7, h8, h9, h10, h11⟩ := hwf
  have h1' : cid < 256 ^ 8 := by rw [pow256_8]; exact h1
  have h2' : t < 256 ^ 4 := by rw [pow256_4]; exact h2
  have h5' : dl < 256 ^ 8 := by rw [pow256_8]; exact h5
  have h6' : lf < 256 ^ 8 := by rw [pow256_8]; exact h6
  have h7' : ul < 256 ^ 8 := by rw [pow256_8]; exact h7
  have h8' : ip < 256 ^ 4 := by rw [pow256_4]; exact h8
  have h9' : k < 256 ^ 4 := by rw [pow256_4]; exact h9
  have h10' : pw < 256 ^ 4 := by rw [pow256_4]; exact h10
  have hih : ih.hash.length = 20 := h3.1
  have hpid : pid.inner.length = 20 := h4.1
  cases po with
  | none =>
    unfold encodeAnnounceRequest readAnnounceRequest
    simp only [List.append_nil]
    rw [readBE_be _ h1']
    simp only [readAction_code, readBE_be _ h2', readBytesN_exact _ hih,
      readBytesN_exact _ hpid, readBE_be _ h5', readBE_be _ h6', readBE_be _ h7',
      readEvent_code, readBE_be _ h8', readBE_be _ h9', readBE_be_nil h10',
      readOptU16_nil]
  | some p =>
    have hp : p < 2 ^ 16 := by simpa using h11
    unfold encodeAnnounceRequest readAnnounceRequest
    rw [readBE_be _ h1']
    simp only [readAction_code, readBE_be _ h2', readBytesN_exact _ hih,
      readBytesN_exact _ hpid, readBE_be _ h5', readBE_be _ h6', readBE_be _ h7',
      readEvent_code, readBE_be _ h8', readBE_be _ h9', readBE_be _ h10',
      readOptU16_be2 hp]

/-! ## Decode of encode, per shape -/

theorem actionCode_le (a : Action) : actionCode a ≤ 2 := by
  cases a <;> simp [actionCode]

theorem decode_encode_connectRequest (r : ConnectRequest) (hwf : ConnectRequestWF r)
    (hv : r.protocol_id = CONNECT_MAGIC) :
    decode (encodeConnectRequest r) = some (.packet (.ConnectRequest r)) := by
  obtain ⟨h1, h2⟩ := hwf
  have hlen : (encodeConnectRequest r).length = 16 := by
    simp [encodeConnectRequest, List.length_append, length_be]
  have htake : (encodeConnectRequest r).take 8 = be 8 r.protocol_id := by
    unfold encodeConnectRequest
    exact takeAppendOf _ (length_be 8 _)
  have hmag : beVal ((encodeConnectRequest r).take 8) = CONNECT_MAGIC := by
    rw [htake, beVal_be (by rw [pow256_8]; exact h1), hv]
  rw [decode_eq_of (by omega), if_pos hmag]
  simp [parseAs, readConnectRequest_encode r ⟨h1, h2⟩]

theorem decode_encode_connectResponse (r : ConnectResponse) (hwf : ConnectResponseWF r)
    (hact : r.action = Action.connect)
    (hs1 : r.connection_id / 2 ^ 32 ≠ 1) (hs2 : r.connection_id / 2 ^ 32 ≠ 2) :
    decode (encodeConnectResponse r) = some (.packet (.ConnectResponse r)) := by
  obtain ⟨h1, h2⟩ := hwf
  have hxlt : actionCode r.action < 2 ^ 32 := by
    have := actionCode_le r.action
    omega
  have hlen : (encodeConnectResponse r).length = 16 := by
    simp [encodeConnectResponse, List.length_append, length_be]
  have htake8 : (encodeConnectResponse r).take 8 =
      be 4 (actionCode r.action) ++ be 4 r.transaction_id := by
    unfold encodeConnectResponse
    rw [← List.append_assoc]
    exact takeAppendOf _ (by simp [List.length_append, length_be])
  have hmagic : beVal ((encodeConnectResponse r).take 8) =
      actionCode r.action * 2 ^ 32 + r.transaction_id := by
    rw [htake8, beVal_be4_be4 hxlt h1]
  have hne : beVal ((encodeConnectResponse r).take 8) ≠ CONNECT_MAGIC := by
    rw [hmagic]
    exact head_ne_magic (actionCode_le _) h1
  have hdrop8 : (encodeConnectResponse r).drop 8 = be 8 r.connection_id := by
    unfold encodeConnectResponse
    rw [← List.append_assoc]
    exact dropAppendOf _ (by simp [List.length_append, length_be])
  have hreq : beVal (((encodeConnectResponse r).drop 8).take 4) =
      r.connection_id / 2 ^ 32 := by
    rw [hdrop8, be8_split32, takeAppendOf _ (length_be 4 _), beVal_be (div32_lt h2),
      pow256_4]
  have hresp : beVal ((encodeConnectResponse r).take 8) / 2 ^ 32 % 2 ^ 32 =
      actionCode r.action := by
    rw [hmagic, respA_head hxlt h1]
  rw [decode_eq_of (by omega), if_neg hne, hreq, hresp, requestPhase_other hs1 hs2, hact]
  simp [responsePhase, actionTryFrom, actionCode, parseAs,
    readConnectResponse_encode r ⟨h1, h2⟩]

theorem decode_encode_announceRequest (r : AnnounceRequest) (hwf : AnnounceRequestWF r)
    (hact : r.action = Action.announce) (hcid : r.connection_id ≠ CONNECT_MAGIC) :
    decode (encodeAnnounceRequest r) = some (.packet (.AnnounceRequest r)) := by
  have h1 := hwf.1
  have hlen : 16 ≤ (encodeAnnounceRequest r).length := by
    cases hp : r.port with
    | none =>
      simp [encodeAnnounceRequest, hp, List.length_append, length_be]
      omega
    | some p =>
      simp [encodeAnnounceRequest, hp, List.length_append, length_be]
      omega
  have htake8 : (encodeAnnounceRequest r).take 8 = be 8 r.connection_id := by
    unfold encodeAnnounceRequest
    exact takeAppendOf _ (length_be 8 _)
  have hne : beVal ((encodeAnnounceRequest r).take 8) ≠ CONNECT_MAGIC := by
    rw [htake8, beVal_be (by rw [pow256_8]; exact h1)]
    exact hcid
  have hdrop8 : (encodeAnnounceRequest r).drop 8 =
      be 4 (actionCode r.action) ++
        (be 4 r.transaction_id ++
          (r.info_hash.hash ++
            (r.peer_id.inner ++
              (be 8 r.downloaded ++
                (be 8 r.left ++
                  (be 8 r.uploaded ++
                    (be 4 (eventCode r.event) ++
                      (be 4 r.ip_address ++
                        (be 4 r.key ++
                          (be 4 r.peers_wanted ++
                            (match r.port with
                              | Option.none => []
                              | some p => be 2 p))))))))))) := by
    unfold encodeAnnounceRequest
    exact dropAppendOf _ (length_be 8 _)
  have hreq : beVal (((encodeAnnounceRequest r).drop 8).take 4) = actionCode r.action := by
    rw [hdrop8, takeAppendOf _ (length_be 4 _)]
    exact beVal_be (by rw [pow256_4]; have := actionCode_le r.action; omega)
  rw [decode_eq_of hlen, if_neg hne, hreq, hact]
  simp [requestPhase, actionTryFrom, actionCode, parseAs,
    readAnnounceRequest_encode r hwf]

theorem decode_encode_scrapeRequest (r : ScrapeRequest) (hwf : ScrapeRequestWF r)
    (hact : r.action = Action.scrape) (hcid : r.connection_id ≠ CONNECT_MAGIC) :
    decode (encodeScrapeRequest r) = some (.packet (.ScrapeRequest r)) := by
  have h1 := hwf.1
  have hlen : 16 ≤ (encodeScrapeRequest r).length := by
    simp [encodeScrapeRequest, List.length_append, length_be]
    omega
  have htake8 : (encodeScrapeRequest r).take 8 = be 8 r.connection_id := by
    unfold encodeScrapeRequest
    exact takeAppendOf _ (length_be 8 _)
  have hne : beVal ((encodeScrapeRequest r).take 8) ≠ CONNECT_MAGIC := by
    rw [htake8, beVal_be (by rw [pow256_8]; exact h1)]
    exact hcid
  have hdrop8 : (encodeScrapeRequest r).drop 8 =
      be 4 (actionCode r.action) ++
        (be 4 r.transaction_id ++ encodeList (fun h => h.hash) r.hashes) := by
    unfold encodeScrapeRequest
    exact dropAppendOf _ (length_be 8 _)
  have hreq : beVal (((encodeScrapeRequest r).drop 8).take 4) = actionCode r.action := by
    rw [hdrop8, takeAppendOf _ (length_be 4 _)]
    exact beVal_be (by rw [pow256_4]; have := actionCode_le r.action; omega)
  rw [decode_eq_of hlen, if_neg hne, hreq, hact]
  simp [requestPhase, actionTryFrom, actionCode, parseAs,
    readScrapeRequest_encode r hwf]

theorem decode_encode_announceResponse (r : AnnounceResponse) (hwf : AnnounceResponseWF r)
    (hact : r.action = Action.announce)
    (hs1 : r.interval ≠ 1) (hs2 : r.interval ≠ 2) :
    decode (encodeAnnounceResponse r) = some (.packet (.AnnounceResponse r)) := by
  obtain ⟨h1, h2, h3, h4, h5⟩ := hwf
  have hxlt : actionCode r.action < 2 ^ 32 := by
    have := actionCode_le r.action
    omega
  have hlen : 16 ≤ (encodeAnnounceResponse r).length := by
    simp [encodeAnnounceResponse, List.length_append, length_be]
    omega
  have htake8 : (encodeAnnounceResponse r).take 8 =
      be 4 (actionCode r.action) ++ be 4 r.transaction_id := by
    unfold encodeAnnounceResponse
    rw [← List.append_assoc]
    exact takeAppendOf _ (by simp [List.length_append, length_be])
  have hmagic : beVal ((encodeAnnounceResponse r).take 8) =
      actionCode r.action * 2 ^ 32 + r.transaction_id := by
    rw [htake8, beVal_be4_be4 hxlt h1]
  have hne : beVal ((encodeAnnounceResponse r).take 8) ≠ CONNECT_MAGIC := by
    rw [hmagic]
    exact head_ne_magic (actionCode_le _) h1
  have hdrop8 : (encodeAnnounceResponse r).drop 8 =
      be 4 r.interval ++
        (be 4 r.leechers ++ (be 4 r.seeders ++ encodeList encodePeer r.peers)) := by
    unfold encodeAnnounceResponse
    rw [← List.append_assoc]
    exact dropAppendOf _ (by simp [List.length_append, length_be])
  have hreq : beVal (((encodeAnnounceResponse r).drop 8).take 4) = r.interval := by
    rw [hdrop8, takeAppendOf _ (length_be 4 _)]
    exact beVal_be (by rw [pow256_4]; exact h2)
  have hresp : beVal ((encodeAnnounceResponse r).take 8) / 2 ^ 32 % 2 ^ 32 =
      actionCode r.action := by
    rw [hmagic, respA_head hxlt h1]
  rw [decode_eq_of hlen, if_neg hne, hreq, hresp, requestPhase_other hs1 hs2, hact]
  simp [responsePhase, actionTryFrom, actionCode, parseAs,
    readAnnounceResponse_encode r ⟨h1, h2, h3, h4, h5⟩]

theorem decode_encode_scrapeResponse (r : ScrapeResponse) (hwf : ScrapeResponseWF r)
    (hact : r.action = Action.scrape) (hne16 : 16 ≤ (encodeScrapeResponse r).length)
    (hsafe : ∀ d, r.data.head? = some d → d.seeders ≠ 1 ∧ d.seeders ≠ 2) :
    decode (encodeScrapeResponse r) = some (.packet (.ScrapeResponse r)) := by
  obtain ⟨h1, h2⟩ := hwf
  have hxlt : actionCode r.action < 2 ^ 32 := by
    have := actionCode_le r.action
    omega
  have htake8 : (encodeScrapeResponse r).take 8 =
      be 4 (actionCode r.action) ++ be 4 r.transaction_id := by
    unfold encodeScrapeResponse
    rw [← List.append_assoc]
    exact takeAppendOf _ (by simp [List.length_append, length_be])
  have hmagic : beVal ((encodeScrapeResponse r).take 8) =
      actionCode r.action * 2 ^ 32 + r.transaction_id := by
    rw [htake8, beVal_be4_be4 hxlt h1]
  have hne : beVal ((encodeScrapeResponse r).take 8) ≠ CONNECT_MAGIC := by
    rw [hmagic]
    exact head_ne_magic (actionCode_le _) h1
  have hdrop8 : (encodeScrapeResponse r).drop 8 = encodeList encodeScrapeData r.data := by
    unfold encodeScrapeResponse
    rw [← List.append_assoc]
    exact dropAppendOf _ (by simp [List.length_append, length_be])
  have hresp : beVal ((encodeScrapeResponse r).take 8) / 2 ^ 32 % 2 ^ 32 =
      actionCode r.action := by
    rw [hmagic, respA_head hxlt h1]
  have hreqne : beVal (((encodeScrapeResponse r).drop 8).take 4) ≠ 1 ∧
      beVal (((encodeScrapeResponse r).drop 8).take 4) ≠ 2 := by
    rw [hdrop8]
    cases hd : r.data with
    | nil =>
      simp [encodeList, beVal]
    | cons d t =>
      have hds := hsafe d (by rw [hd]; rfl)
      have hsd : ScrapeDataWF d := h2 d (by rw [hd]; simp)
      have htk : (encodeList encodeScrapeData (d :: t)).take 4 = be 4 d.seeders := by
        rw [encodeList]
        unfold encodeScrapeData
        rw [List.append_assoc]
        exact takeAppendOf _ (length_be 4 _)
      rw [htk, beVal_be (by rw [pow256_4]; exact hsd.1)]
      exact hds
  rw [decode_eq_of hne16, if_neg hne, requestPhase_other hreqne.1 hreqne.2, hresp, hact]
  simp [responsePhase, actionTryFrom, actionCode, parseAs,
    readScrapeResponse_encode r ⟨h1, h2⟩]

/-! ## Parser inversion: the action a parsed packet stores -/

theorem readBE_some {w : Nat} {bs : List Nat} {v : Nat} {r : List Nat}
    (h : readBE w bs = some (v, r)) : v = beVal (bs.take w) ∧ r = bs.drop w := by
  by_cases hle : w ≤ bs.length
  · simp [readBE, readBytesN, hle] at h
    exact ⟨h.1.symm, h.2.symm⟩
  · simp [readBE, readBytesN, hle] at h

theorem readAction_some {bs : List Nat} {a : Action} {r : List Nat}
    (h : readAction bs = some (a, r)) :
    actionTryFrom (beVal (bs.take 4)) = some a := by
  unfold readAction at h
  cases hbe : readBE 4 bs with
  | none => simp [hbe] at h
  | some vr =>
    obtain ⟨v, rest⟩ := vr
    simp only [hbe] at h
    obtain ⟨hv, -⟩ := readBE_some hbe
    cases hat : actionTryFrom v with
    | none => simp [hat] at h
    | some a2 =>
      simp only [hat, Option.some.injEq, Prod.mk.injEq] at h
      rw [← hv, hat, h.1]

theorem readConnectResponse_action {bs : List Nat} {q : ConnectResponse} {rest : List Nat}
    (h : readConnectResponse bs = some (q, rest)) :
    actionTryFrom (beVal (bs.take 4)) = some q.action := by
  unfold readConnectResponse at h
  cases ha : readAction bs with
  | none => simp [ha] at h
  | some ar =>
    obtain ⟨a, r1⟩ := ar
    simp only [ha] at h
    cases h2 : readBE 4 r1 with
    | none => simp [h2] at h
    | some tr =>
      obtain ⟨t, r2⟩ := tr
      simp only [h2] at h
      cases h3 : readBE 8 r2 with
      | none => simp [h3] at h
      | some cr =>
        obtain ⟨c, r3⟩ := cr
        simp only [h3, Option.some.injEq, Prod.mk.injEq] at h
        rw [← h.1]
        exact readAction_some ha

theorem readAnnounceResponse_action {bs : List Nat} {q : AnnounceResponse} {rest : List Nat}
    (h : readAnnounceResponse bs = some (q, rest)) :
    actionTryFrom (beVal (bs.take 4)) = some q.action := by
  unfold readAnnounceResponse at h
  cases ha : readAction bs with
  | none => simp [ha] at h
  | some ar =>
    obtain ⟨a, r1⟩ := ar
    simp only [ha] at h
    cases h2 : readBE 4 r1 with
    | none => simp [h2] at h
    | some tr =>
      obtain ⟨t, r2⟩ := tr
      simp only [h2] at h
      cases h3 : readBE 4 r2 with
      | none => simp [h3] at h
      | some ivr =>
        obtain ⟨iv, r3⟩ := ivr
        simp only [h3] at h
        cases h4 : readBE 4 r3 with
        | none => simp [h4] at h
        | some ler =>
          obtain ⟨le, r4⟩ := ler
          simp only [h4] at h
          cases h5 : readBE 4 r4 with
          | none => simp [h5] at h
          | some ser =>
            obtain ⟨se, r5⟩ := ser
            simp only [h5, Option.some.injEq, Prod.mk.injEq] at h
            rw [← h.1]
            exact readAction_some ha

theorem readScrapeResponse_action {bs : List Nat} {q : ScrapeResponse} {rest : List Nat}
    (h : readScrapeResponse bs = some (q, rest)) :
    actionTryFrom (beVal (bs.take 4)) = some q.action := by
  unfold readScrapeResponse at h
  cases ha : readAction bs with
  | none => simp [ha] at h
  | some ar =>
    obtain ⟨a, r1⟩ := ar
    simp only [ha] at h
    cases h2 : readBE 4 r1 with
    | none => simp [h2] at h
    | some tr =>
      obtain ⟨t, r2⟩ := tr
      simp only [h2, Option.some.injEq, Prod.mk.injEq] at h
      rw [← h.1]
      exact readAction_some ha

theorem readScrapeRequest_action {bs : List Nat} {q : ScrapeRequest} {rest : List Nat}
    (h : readScrapeRequest bs = some (q, rest)) :
    actionTryFrom (beVal ((bs.drop 8).take 4)) = some q.action := by
  unfold readScrapeRequest at h
  cases h1 : readBE 8 bs with
  | none => simp [h1] at h
  | some cr =>
    obtain ⟨cid, r1⟩ := cr
    simp only [h1] at h
    obtain ⟨-, hr1⟩ := readBE_some h1
    cases ha : readAction r1 with
    | none => simp [ha] at h
    | some ar =>
      obtain ⟨a, r2⟩ := ar
      simp only [ha] at h
      cases h3 : readBE 4 r2 with
      | none => simp [h3] at h
      | some tr =>
        obtain ⟨t, r3⟩ := tr
        simp only [h3, Option.some.injEq, Prod.mk.injEq] at h
        rw [← h.1, ← hr1]
        exact readAction_some ha

theorem readAnnounceRequest_action {bs : List Nat} {q : AnnounceRequest} {rest : List Nat}
    (h : readAnnounceRequest bs = some (q, rest)) :
    actionTryFrom (beVal ((bs.drop 8).take 4)) = some q.action := by
  unfold readAnnounceRequest at h
  cases h1 : readBE 8 bs with
  | none => simp [h1] at h
  | some cr =>
    obtain ⟨cid, r1⟩ := cr
    simp only [h1] at h
    obtain ⟨-, hr1⟩ := readBE_some h1
    cases ha : readAction r1 with
    | none => simp [ha] at h
    | some ar =>
      obtain ⟨a, r2⟩ := ar
      simp only [ha] at h
      cases h3 : readBE 4 r2 with
      | none => simp [h3] at h
      | some tr =>
        obtain ⟨t, r3⟩ := tr
        simp only [h3] at h
        cases h4 : readBytesN 20 r3 with
        | none => simp [h4] at h
        | some ihr =>
          obtain ⟨ih, r4⟩ := ihr
          simp only [h4] at h
          cases h5 : readBytesN 20 r4 with
          | none => simp [h5] at h
          | some pidr =>
            obtain ⟨pid, r5⟩ := pidr
            simp only [h5] at h
            cases h6 : readBE 8 r5 with
            | none => simp [h6] at h
            | some dlr =>
              obtain ⟨dl, r6⟩ := dlr
              simp only [h6] at h
              cases h7 : readBE 8 r6 with
              | none => simp [h7] at h
              | some lfr =>
                obtain ⟨lf, r7⟩ := lfr
                simp only [h7] at h
                cases h8 : readBE 8 r7 with
                | none => simp [h8] at h
                | some ulr =>
                  obtain ⟨ul, r8⟩ := ulr
                  simp only [h8] at h
                  cases h9 : readEvent r8 with
                  | none => simp [h9] at h
                  | some evr =>
                    obtain ⟨ev, r9⟩ := evr
                    simp only [h9] at h
                    cases h10 : readBE 4 r9 with
                    | none => simp [h10] at h
                    | some ipr =>
                      obtain ⟨ip, r10⟩ := ipr
                      simp only [h10] at h
                      cases h11 : readBE 4 r10 with
                      | none => simp [h11] at h
                      | some kr =>
                        obtain ⟨k, r11⟩ := kr
                        simp only [h11] at h
                        cases h12 : readBE 4 r11 with
                        | none => simp [h12] at h
                        | some pwr =>
                          obtain ⟨pw, r12⟩ := pwr
                          simp only [h12, Option.some.injEq, Prod.mk.injEq] at h
                          rw [← h.1, ← hr1]
                          exact readAction_some ha

/-! ## Remaining shared definitions for the claims -/

/-- Conditions under which an encoded packet is not captured by a
higher-priority decode interpretation: requests must not carry the magic
constant as connection id; a `ConnectResponse` must not have bytes 8..12
(the upper half of its connection id) equal to a request action code; an
`AnnounceResponse` must not have an interval of 1 or 2 (its bytes 8..12);
a `ScrapeResponse` needs at least one record (8 bytes alone are below the
16-byte floor) whose seeders field is not 1 or 2. -/
def RoundTripSafe : TrackerPacket → Prop
  | .ConnectRequest _ => True
  | .ConnectResponse r => r.connection_id / 2 ^ 32 ≠ 1 ∧ r.connection_id / 2 ^ 32 ≠ 2
  | .AnnounceRequest r => r.connection_id ≠ CONNECT_MAGIC
  | .ScrapeRequest r => r.connection_id ≠ CONNECT_MAGIC
  | .AnnounceResponse r => r.interval ≠ 1 ∧ r.interval ≠ 2
  | .ScrapeResponse r =>
      r.data ≠ [] ∧ ∀ d, r.data.head? = some d → d.seeders ≠ 1 ∧ d.seeders ≠ 2

theorem map_const_replicate {α β : Type} (l : List α) (b : β) :
    l.map (fun _ => b) = List.replicate l.length b := by
  induction l with
  | nil => simp
  | cons a t ih => simp [ih, List.replicate_succ]

theorem respA_bytes {bs : List Nat} (hb : ∀ b ∈ bs, b < 256) (hlen : 8 ≤ bs.length) :
    beVal (bs.take 8) / 2 ^ 32 % 2 ^ 32 = beVal (bs.take 4) := by
  have hsplit : bs.take 8 = bs.take 4 ++ (bs.drop 4).take 4 := by
    have h := takeAddMy 4 4 bs
    norm_num at h
    exact h
  have hlen4 : (bs.take 4).length = 4 := by
    simp [List.length_take]
    omega
  have hlen4' : ((bs.drop 4).take 4).length = 4 := by
    simp [List.length_take, List.length_drop]
    omega
  have hv1 : beVal (bs.take 4) < 2 ^ 32 := by
    have h := beVal_lt (fun b hbb => hb b (List.take_subset 4 bs hbb))
    rw [hlen4, pow256_4] at h
    exact h
  have hv2 : beVal ((bs.drop 4).take 4) < 2 ^ 32 := by
    have h := beVal_lt (fun b hbb =>
      hb b (List.drop_subset 4 bs (List.take_subset 4 (bs.drop 4) hbb)))
    rw [hlen4', pow256_4] at h
    exact h
  rw [hsplit, beVal_append, hlen4', pow256_4]
  exact respA_head hv1 hv2

theorem responsePhase_action_agrees {bs : List Nat} {p : TrackerPacket}
    (hdec : responsePhase (beVal (bs.take 4)) bs = .packet p) : actionAgrees p := by
  unfold responsePhase at hdec
  cases hv : actionTryFrom (beVal (bs.take 4)) with
  | none => simp [hv] at hdec
  | some a =>
    cases a with
    | connect =>
      simp only [hv] at hdec
      unfold parseAs at hdec
      cases hr : readConnectResponse bs with
      | none => simp [hr] at hdec
      | some qr =>
        obtain ⟨q, rest⟩ := qr
        simp [hr] at hdec
        have hact := readConnectResponse_action hr
        rw [hv] at hact
        simp at hact
        rw [← hdec]
        simp [actionAgrees, packetActionField, variantAction, ← hact]
    | announce =>
      simp only [hv] at hdec
      unfold parseAs at hdec
      cases hr : readAnnounceResponse bs with
      | none => simp [hr] at hdec
      | some qr =>
        obtain ⟨q, rest⟩ := qr
        simp [hr] at hdec
        have hact := readAnnounceResponse_action hr
        rw [hv] at hact
        simp at hact
        rw [← hdec]
        simp [actionAgrees, packetActionField, variantAction, ← hact]
    | scrape =>
      simp only [hv] at hdec
      unfold parseAs at hdec
      cases hr : readScrapeResponse bs with
      | none => simp [hr] at hdec
      | some qr =>
        obtain ⟨q, rest⟩ := qr
        simp [hr] at hdec
        have hact := readScrapeResponse_action hr
        rw [hv] at hact
        simp at hact
        rw [← hdec]
        simp [actionAgrees, packetActionField, variantAction, ← hact]

/-- A 16-byte buffer with the connect magic but an invalid action value 5 at
bytes 8..12. -/
def magicBadAction : List Nat :=
  [0, 0, 4, 0x17, 0x27, 0x10, 0x19, 0x80, 0, 0, 0, 5, 0, 0, 0, 0]

/-- A well-formed 16-byte connect request buffer (action Connect,
transaction id 123). -/
def magicGoodBuffer : List Nat :=
  [0, 0, 4, 0x17, 0x27, 0x10, 0x19, 0x80, 0, 0, 0, 0, 0, 0, 0, 123]

/-- A 16-byte buffer with the connect magic and action bytes 1: decode
yields a `ConnectRequest` whose action field is Announce. -/
def magicAnnounceAction : List Nat :=
  [0, 0, 4, 0x17, 0x27, 0x10, 0x19, 0x80, 0, 0, 0, 1, 0, 0, 0, 0]

/-- A 16-byte non-magic buffer whose request action (bytes 8..12) is 1. -/
def requestActionBuffer : List Nat :=
  [0, 0, 0, 0, 0, 0, 0, 7, 0, 0, 0, 1, 0, 0, 0, 9]

/-! ## Claims -/

/-- C1 counterexample: `magicBadAction` begins with the connect magic and has
16 bytes, yet decode does not return a ConnectRequest for it: the action
field value 5 fails the enum parse, so decode propagates a parse error. -/
theorem decode_magic_invalid_action_errors :
    16 ≤ magicBadAction.length ∧
    beVal (magicBadAction.take 8) = CONNECT_MAGIC ∧
    ∀ p : ConnectRequest,
      decode magicBadAction ≠ some (.packet (.ConnectRequest p)) := by
  refine ⟨by decide, by decide, ?_⟩
  intro p hp
  have hd : decode magicBadAction = some DecodeResult.parseError := by decide
  rw [hd] at hp
  simp at hp

/-- C1 (amended): for every buffer of at least 16 bytes whose first 8 bytes
equal the connect magic, decode commits to the ConnectRequest
interpretation with priority over every other one: it returns the parsed
16-byte-layout ConnectRequest when the layout parses (bytes 8..12 must be a
valid action code), and a parse error otherwise; no other interpretation is
ever tried. -/
theorem decode_magic_commits_connectRequest (bs : List Nat) (hlen : 16 ≤ bs.length)
    (hmag : beVal (bs.take 8) = CONNECT_MAGIC) :
    (∀ (p : ConnectRequest) (rest : List Nat), readConnectRequest bs = some (p, rest) →
        decode bs = some (.packet (.ConnectRequest p))) ∧
    (readConnectRequest bs = none → decode bs = some DecodeResult.parseError) := by
  have hd := decode_eq_of hlen
  rw [if_pos hmag] at hd
  constructor
  · intro p rest hp
    rw [hd]
    simp [parseAs, hp]
  · intro hp
    rw [hd]
    simp [parseAs, hp]

/-- Witness for the amended C1 at a concrete valid connect request buffer. -/
theorem decode_magic_commits_connectRequest_witness :
    decode magicGoodBuffer =
      some (.packet (.ConnectRequest ⟨CONNECT_MAGIC, .connect, 123⟩)) :=
  (decode_magic_commits_connectRequest magicGoodBuffer (by decide) (by decide)).1
    ⟨CONNECT_MAGIC, .connect, 123⟩ [] (by decide)

/-- C2 counterexample: a well-formed, valid ScrapeResponse whose only record
has seeders = 2 does not round-trip: its bytes 8..12 read as the Scrape
request action, so decode returns a ScrapeRequest instead. -/
theorem roundtrip_fails_scrapeResponse_ambiguity :
    PacketWF (.ScrapeResponse ⟨.scrape, 0, [⟨2, 0, 0⟩]⟩) ∧
    PacketValid (.ScrapeResponse ⟨.scrape, 0, [⟨2, 0, 0⟩]⟩) ∧
    decode (encodePacket (.ScrapeResponse ⟨.scrape, 0, [⟨2, 0, 0⟩]⟩)) ≠
      some (.packet (.ScrapeResponse ⟨.scrape, 0, [⟨2, 0, 0⟩]⟩)) := by
  refine ⟨?_, ?_, ?_⟩
  · unfold PacketWF ScrapeResponseWF ScrapeDataWF
    decide
  · unfold PacketValid actionAgrees packetActionField variantAction
    decide
  · decide

/-- C2 (amended): decode inverts encode on every well-formed valid value of
the six packet shapes whose encoding is not captured by a higher-priority
decode interpretation (`RoundTripSafe`): requests whose connection id is not
the magic constant, a ConnectResponse whose connection id upper half is not
a request action code, an AnnounceResponse whose interval is not 1 or 2, and
a ScrapeResponse with at least one record whose seeders count is not 1
or 2.  AnnounceRequests round-trip both with and without the trailing
optional port. -/
theorem decode_encode_roundtrip_amended (p : TrackerPacket) (hwf : PacketWF p)
    (hv : PacketValid p) (hs : RoundTripSafe p) :
    decode (encodePacket p) = some (.packet p) := by
  obtain ⟨hagree, hmagic⟩ := hv
  cases p with
  | ConnectRequest r => exact decode_encode_connectRequest r hwf hmagic
  | ConnectResponse r => exact decode_encode_connectResponse r hwf hagree hs.1 hs.2
  | AnnounceRequest r => exact decode_encode_announceRequest r hwf hagree hs
  | ScrapeRequest r => exact decode_encode_scrapeRequest r hwf hagree hs
  | AnnounceResponse r => exact decode_encode_announceResponse r hwf hagree hs.1 hs.2
  | ScrapeResponse r =>
    obtain ⟨hne, hhead⟩ := hs
    have hl12 : ∀ x ∈ r.data, (encodeScrapeData x).length = 12 := by
      intro x _
      simp [encodeScrapeData, List.length_append, length_be]
    have hlist := encodeList_length r.data hl12
    have hpos : 1 ≤ r.data.length := by
      cases hd : r.data with
      | nil => exact absurd hd hne
      | cons d t => simp [hd]
    have hlen : 16 ≤ (encodeScrapeResponse r).length := by
      simp [encodeScrapeResponse, List.length_append, length_be, hlist]
      omega
    exact decode_encode_scrapeResponse r hwf hagree hlen hhead

/-- Witness for the amended C2 at a concrete scrape request with one hash. -/
theorem decode_encode_roundtrip_amended_witness :
    decode (encodePacket (.ScrapeRequest ⟨42, .scrape, 7, [⟨List.replicate 20 0⟩]⟩)) =
      some (.packet (.ScrapeRequest ⟨42, .scrape, 7, [⟨List.replicate 20 0⟩]⟩)) :=
  decode_encode_roundtrip_amended (.ScrapeRequest ⟨42, .scrape, 7, [⟨List.replicate 20 0⟩]⟩)
    (by unfold PacketWF ScrapeRequestWF InfoHashWF; decide)
    (by unfold PacketValid actionAgrees packetActionField variantAction; decide)
    (by unfold RoundTripSafe CONNECT_MAGIC; decide)

/-- C3: decode is total; on every buffer of at least 16 bytes it returns a
result (a parsed packet, the no-packet outcome, or a soft parse error) and
never reaches the panic marker of the raw slice indexing. -/
theorem decode_total_no_panic (bs : List Nat) (hlen : 16 ≤ bs.length) :
    ∃ r : DecodeResult, decode bs = some r := by
  rw [decode_eq_of hlen]
  exact ⟨_, rfl⟩

/-- Witness for C3 on a concrete 16-byte buffer. -/
theorem decode_total_no_panic_witness :
    ∃ r : DecodeResult, decode (List.replicate 16 0) = some r :=
  decode_total_no_panic (List.replicate 16 0) (by decide)

/-- C4: every buffer of fewer than 16 bytes decodes to the incomplete
outcome (`Ok(None)`, no packet) and consumes nothing. -/
theorem decode_short_incomplete (bs : List Nat) (hlen : bs.length < 16) :
    decode bs = some DecodeResult.noPacket ∧ decodeConsumed bs = 0 := by
  constructor
  · unfold decode
    rw [if_pos hlen]
  · unfold decodeConsumed
    rw [if_pos hlen]

/-- Witness for C4 on the empty buffer. -/
theorem decode_short_incomplete_witness :
    decode [] = some DecodeResult.noPacket ∧ decodeConsumed [] = 0 :=
  decode_short_incomplete [] (by decide)

/-- C5: on a non-magic byte buffer of at least 16 bytes, decode tries bytes
8..12 as a request action first: Announce or Scrape there wins and decode is
the corresponding request parse; only when the request action matches
neither (it is unparseable or Connect) does decode fall to `responsePhase`,
which dispatches bytes 0..4 over Connect, Announce, and Scrape and
otherwise reports no packet. -/
theorem decode_dispatch_priority (bs : List Nat) (hb : ∀ b ∈ bs, b < 256)
    (hlen : 16 ≤ bs.length) (hmag : beVal (bs.take 8) ≠ CONNECT_MAGIC) :
    (actionTryFrom (beVal ((bs.drop 8).take 4)) = some Action.announce →
        decode bs = some (parseAs readAnnounceRequest TrackerPacket.AnnounceRequest bs)) ∧
    (actionTryFrom (beVal ((bs.drop 8).take 4)) = some Action.scrape →
        decode bs = some (parseAs readScrapeRequest TrackerPacket.ScrapeRequest bs)) ∧
    ((∀ a, actionTryFrom (beVal ((bs.drop 8).take 4)) = some a → a = Action.connect) →
        decode bs = some (responsePhase (beVal (bs.take 4)) bs)) := by
  have hd := decode_eq_of hlen
  rw [if_neg hmag, respA_bytes hb (by omega)] at hd
  refine ⟨?_, ?_, ?_⟩
  · intro ha
    rw [hd]
    simp [requestPhase, ha]
  · intro ha
    rw [hd]
    simp [requestPhase, ha]
  · intro hc
    rw [hd]
    by_cases h1 : beVal ((bs.drop 8).take 4) = 1
    · have h := hc Action.announce (by rw [h1]; rfl)
      simp at h
    · by_cases h2 : beVal ((bs.drop 8).take 4) = 2
      · have h := hc Action.scrape (by rw [h2]; rfl)
        simp at h
      · rw [requestPhase_other h1 h2]

/-- Witness for C5: a 16-byte buffer with request action 1 dispatches to the
announce request parse, which fails on the truncated body. -/
theorem decode_dispatch_priority_witness :
    decode requestActionBuffer = some DecodeResult.parseError := by
  have h := (decode_dispatch_priority requestActionBuffer (by decide) (by decide)
    (by decide)).1 (by decide)
  rw [h]
  decide

/-- C6: conversion of a 32-bit value to an `Action` succeeds exactly for
0 (Connect), 1 (Announce), 2 (Scrape), and to an `AnnounceEvent` exactly
for 0 (None), 1 (Completed), 2 (Started), 3 (Stopped); everything else
fails. -/
theorem action_event_tryFrom_exact (n : Nat) (hn : n < 2 ^ 32) :
    (actionTryFrom n = some Action.connect ↔ n = 0) ∧
    (actionTryFrom n = some Action.announce ↔ n = 1) ∧
    (actionTryFrom n = some Action.scrape ↔ n = 2) ∧
    (actionTryFrom n = none ↔ n ≠ 0 ∧ n ≠ 1 ∧ n ≠ 2) ∧
    (eventTryFrom n = some AnnounceEvent.none ↔ n = 0) ∧
    (eventTryFrom n = some AnnounceEvent.completed ↔ n = 1) ∧
    (eventTryFrom n = some AnnounceEvent.started ↔ n = 2) ∧
    (eventTryFrom n = some AnnounceEvent.stopped ↔ n = 3) ∧
    (eventTryFrom n = none ↔ n ≠ 0 ∧ n ≠ 1 ∧ n ≠ 2 ∧ n ≠ 3) := by
  rcases n with _ | (_ | (_ | (_ | m))) <;>
    simp [actionTryFrom, eventTryFrom]

/-- Witness for C6 at the unmapped value 5. -/
theorem action_event_tryFrom_exact_witness :
    actionTryFrom 5 = none ∧ eventTryFrom 5 = none := by
  have h := action_event_tryFrom_exact 5 (by decide)
  exact ⟨h.2.2.2.1.mpr (by decide), h.2.2.2.2.2.2.2.2.mpr (by decide)⟩

/-- C7: for every announce request and every configuration whose peer list
has a representable size, the handler echoes the transaction id and replies
with the configured interval, seeders equal to the peer-list size, zero
leechers, and the full configured peer list, regardless of the request
contents. -/
theorem handle_announce_static (cfg : TrackerConfig) (rc : Nat) (req : AnnounceRequest)
    (hK : cfg.static_peers.length < 2 ^ 32) :
    handlePacket cfg rc (.AnnounceRequest req) = .reply (.AnnounceResponse
      { action := .announce, transaction_id := req.transaction_id,
        interval := cfg.interval, leechers := 0,
        seeders := cfg.static_peers.length, peers := cfg.static_peers }) := by
  have hK' : cfg.static_peers.length < 4294967296 := by
    have h := hK
    norm_num at h
    exact h
  simp [handlePacket, Nat.mod_eq_of_lt hK']

/-- Witness for C7 at a one-peer configuration. -/
theorem handle_announce_static_witness :
    handlePacket ⟨[⟨1, 2⟩], 600⟩ 0
        (.AnnounceRequest ⟨0, .announce, 77, ⟨[]⟩, ⟨[]⟩, 0, 0, 0, .none, 0, 0, 0, none⟩) =
      .reply (.AnnounceResponse ⟨.announce, 77, 600, 0, 1, [⟨1, 2⟩]⟩) :=
  handle_announce_static ⟨[⟨1, 2⟩], 600⟩ 0
    ⟨0, .announce, 77, ⟨[]⟩, ⟨[]⟩, 0, 0, 0, .none, 0, 0, 0, none⟩ (by decide)

/-- C8: for every scrape request with M hashes, the handler echoes the
transaction id and returns exactly M counter records, each equal to
seeders = completed = peer-list size and leechers = 0, regardless of which
hashes were asked for. -/
theorem handle_scrape_counters (cfg : TrackerConfig) (rc : Nat) (req : ScrapeRequest)
    (hK : cfg.static_peers.length < 2 ^ 32) :
    handlePacket cfg rc (.ScrapeRequest req) = .reply (.ScrapeResponse
      { action := .scrape, transaction_id := req.transaction_id,
        data := List.replicate req.hashes.length
          { seeders := cfg.static_peers.length,
            completed := cfg.static_peers.length, leechers := 0 } }) := by
  have hK' : cfg.static_peers.length < 4294967296 := by
    have h := hK
    norm_num at h
    exact h
  simp [handlePacket, Nat.mod_eq_of_lt hK', map_const_replicate]

/-- Witness for C8 at a one-peer configuration and two requested hashes. -/
theorem handle_scrape_counters_witness :
    handlePacket ⟨[⟨1, 2⟩], 600⟩ 0
        (.ScrapeRequest ⟨0, .scrape, 9, [⟨List.replicate 20 0⟩, ⟨List.replicate 20 255⟩]⟩) =
      .reply (.ScrapeResponse ⟨.scrape, 9, List.replicate 2 ⟨1, 1, 0⟩⟩) :=
  handle_scrape_counters ⟨[⟨1, 2⟩], 600⟩ 0
    ⟨0, .scrape, 9, [⟨List.replicate 20 0⟩, ⟨List.replicate 20 255⟩]⟩ (by decide)

/-- C9: every response-shaped packet fed to the handler produces the
explicit no-reply outcome (`Ok(None)`), which is the success channel of the
handler, not its `failure` error channel. -/
theorem handle_response_no_reply (cfg : TrackerConfig) (rc : Nat) (p : TrackerPacket)
    (hresp : isResponsePacket p = true) :
    handlePacket cfg rc p = HandlerResult.noReply := by
  cases p <;> simp [isResponsePacket] at hresp ⊢ <;> rfl

/-- Witness for C9 at a concrete connect response. -/
theorem handle_response_no_reply_witness :
    handlePacket ⟨[], 600⟩ 0 (.ConnectResponse ⟨.connect, 0, 0⟩) =
      HandlerResult.noReply :=
  handle_response_no_reply ⟨[], 600⟩ 0 (.ConnectResponse ⟨.connect, 0, 0⟩) (by decide)

/-- C10 counterexample: the magic-prefixed buffer with action bytes 1
decodes successfully to a `ConnectRequest` whose stored action is Announce,
so the decoded action field does not agree with the packet variant. -/
theorem decoded_connectRequest_action_mismatch :
    decode magicAnnounceAction =
      some (.packet (.ConnectRequest ⟨CONNECT_MAGIC, .announce, 0⟩)) ∧
    ¬ actionAgrees (.ConnectRequest ⟨CONNECT_MAGIC, .announce, 0⟩) := by
  constructor
  · decide
  · unfold actionAgrees packetActionField variantAction
    decide

/-- C10 (amended): every packet produced by decode from a byte buffer, other
than a `ConnectRequest`, stores the action matching its variant, and every
reply produced by the handler stores the action matching its variant.  (A
decoded `ConnectRequest` is selected by the magic constant alone, so its
action field may be any of the three valid codes.) -/
theorem decode_action_variant_agreement_amended :
    (∀ (bs : List Nat) (p : TrackerPacket), (∀ b ∈ bs, b < 256) →
        decode bs = some (.packet p) → isConnectRequest p = false → actionAgrees p) ∧
    (∀ (cfg : TrackerConfig) (rc : Nat) (q resp : TrackerPacket),
        handlePacket cfg rc q = .reply resp → actionAgrees resp) := by
  constructor
  · intro bs p hb hdec hncr
    by_cases hlen : bs.length < 16
    · unfold decode at hdec
      rw [if_pos hlen] at hdec
      simp at hdec
    · have hlen' : 16 ≤ bs.length := by omega
      rw [decode_eq_of hlen'] at hdec
      rw [Option.some_inj] at hdec
      by_cases hmag : beVal (bs.take 8) = CONNECT_MAGIC
      · rw [if_pos hmag] at hdec
        unfold parseAs at hdec
        cases hr : readConnectRequest bs with
        | none => simp [hr] at hdec
        | some pr =>
          obtain ⟨q, rest⟩ := pr
          simp [hr] at hdec
          rw [← hdec] at hncr
          simp [isConnectRequest] at hncr
      · rw [if_neg hmag, respA_bytes hb (by omega)] at hdec
        unfold requestPhase at hdec
        cases hv : actionTryFrom (beVal ((bs.drop 8).take 4)) with
        | none =>
          simp only [hv] at hdec
          exact responsePhase_action_agrees hdec
        | some a =>
          cases a with
          | connect =>
            simp only [hv] at hdec
            exact responsePhase_action_agrees hdec
          | announce =>
            simp only [hv] at hdec
            unfold parseAs at hdec
            cases hr : readAnnounceRequest bs with
            | none => simp [hr] at hdec
            | some qr =>
              obtain ⟨q, rest⟩ := qr
              simp [hr] at hdec
              have hact := readAnnounceRequest_action hr
              rw [hv] at hact
              simp at hact
              rw [← hdec]
              simp [actionAgrees, packetActionField, variantAction, ← hact]
          | scrape =>
            simp only [hv] at hdec
            unfold parseAs at hdec
            cases hr : readScrapeRequest bs with
            | none => simp [hr] at hdec
            | some qr =>
              obtain ⟨q, rest⟩ := qr
              simp [hr] at hdec
              have hact := readScrapeRequest_action hr
              rw [hv] at hact
              simp at hact
              rw [← hdec]
              simp [actionAgrees, packetActionField, variantAction, ← hact]
  · intro cfg rc q resp h
    cases q with
    | ConnectRequest r =>
      simp [handlePacket] at h
      rw [← h]
      simp [actionAgrees, packetActionField, variantAction]
    | AnnounceRequest r =>
      simp [handlePacket] at h
      rw [← h]
      simp [actionAgrees, packetActionField, variantAction]
    | ScrapeRequest r =>
      simp [handlePacket] at h
      rw [← h]
      simp [actionAgrees, packetActionField, variantAction]
    | ConnectResponse r => simp [handlePacket] at h
    | AnnounceResponse r => simp [handlePacket] at h
    | ScrapeResponse r => simp [handlePacket] at h

/-- Witness for the amended C10: decoding an encoded connect response yields
a packet whose action agrees with its variant. -/
theorem decode_action_variant_agreement_amended_witness :
    actionAgrees (.ConnectResponse ⟨.connect, 7, 9⟩) :=
  decode_action_variant_agreement_amended.1
    (encodePacket (.ConnectResponse ⟨.connect, 7, 9⟩))
    (.ConnectResponse ⟨.connect, 7, 9⟩) (by decide) (by decide) (by decide)

end TinyTracker
